import Mathlib

/-!
Verification of the session-orchestration core of the claude-dev-manager
("AdelBot") backend against its natural-language specification.

The Python sources are shallowly embedded as executable Lean definitions:

* `src/platform/backend/services/agent_service.py`
  (`AgentService._stream_command`, `_parse_stream_line`, `_extract_text`,
  `_summarize_tool_input`, `_extract_tool_output`) — the event stream
  decoder and the shared streaming result aggregation;
* `src/backend/services/container_service.py`
  (`ContainerService.exec_streaming`, `git_commit_and_push`) — the streaming
  exec sentinel protocol and the commit/push step;
* `src/platform/backend/services/session_service.py`
  (`SessionService.run_agent`, `finalize_session`, `cancel_session`,
  `_check_tier_limits`, the `_add_event` sequence numbers) — the session
  state machine, finalization/billing and admission control;
* `src/backend/api/routes/websocket.py` (`session_websocket`) — the
  resume-from-sequence event query;
* `src/backend/models/billing.py` (`TIER_LIMITS`).

Modelling conventions: Python floats are modelled as exact rationals (`ℚ`);
wall-clock instants are `ℚ` parameters; the database rows touched by a
function are passed in and returned explicitly; a Python function that can
raise is modelled with `Except`/`Option`, and external effects (Docker, the
event loop) are oracle parameters.  Python string operations are re-implemented
structurally over `List Char` so that every definition evaluates by kernel
reduction.
-/

/-! ### Python-like string primitives (re-implemented structurally) -/

/-- `listStartsWith s p` : does the char list `s` start with `p`?
Models Python `str.startswith` after `String.toList`. -/
def listStartsWith : List Char → List Char → Bool
  | _, [] => true
  | [], _ :: _ => false
  | c :: cs, p :: ps => c == p && listStartsWith cs ps

/-- Python `s.startswith(pat)`. -/
def strStartsWith (s pat : String) : Bool :=
  listStartsWith s.data pat.data

/-- Python slice `s[:n]` (by characters). -/
def strTake (n : Nat) (s : String) : String :=
  String.mk (s.data.take n)

/-- Python slice `s[n:]` (by characters). -/
def strDrop (n : Nat) (s : String) : String :=
  String.mk (s.data.drop n)

/-- ASCII whitespace recognised by Python `str.strip()`. -/
def isWsChar (c : Char) : Bool :=
  c == ' ' || c == '\t' || c == '\n' || c == '\r' || c == '\x0b' || c == '\x0c'

def dropLeadingWs : List Char → List Char
  | [] => []
  | c :: cs => if isWsChar c then dropLeadingWs cs else c :: cs

/-- Python `s.strip()`. -/
def strTrim (s : String) : String :=
  String.mk ((dropLeadingWs (dropLeadingWs s.data).reverse).reverse)

/-- Python `s.lower()` (ASCII letters; the repository only lowercases
ASCII error messages). -/
def strToLower (s : String) : String :=
  String.mk (s.data.map fun c =>
    if 'A' ≤ c ∧ c ≤ 'Z' then Char.ofNat (c.toNat + 32) else c)

/-- `listContainsSub s pat` : does `s` contain `pat` as a contiguous
sub-sequence?  Models Python `pat in s`. -/
def listContainsSub (s pat : List Char) : Bool :=
  match s with
  | [] => listStartsWith [] pat
  | _ :: rest => listStartsWith s pat || listContainsSub rest pat

/-- Python `pat in s` for strings. -/
def strContains (s pat : String) : Bool :=
  listContainsSub s.data pat.data

/-- Fuel-based splitter: Python `s.split(sep)` for a non-empty `sep`. -/
def splitOnAux (sep : List Char) : Nat → List Char → List Char → List (List Char)
  | 0, cs, acc => [acc.reverse ++ cs]
  | _ + 1, [], acc => [acc.reverse]
  | f + 1, c :: cs, acc =>
    if listStartsWith (c :: cs) sep then
      acc.reverse :: splitOnAux sep f (List.drop sep.length (c :: cs)) []
    else
      splitOnAux sep f cs (c :: acc)

/-- Python `s.split(sep)` (non-empty separator, no collapsing). -/
def splitOnStr (sep s : String) : List String :=
  (splitOnAux sep.data (s.data.length + 1) s.data []).map String.mk

/-- All-digit parse of a non-empty digit list. -/
def parseNatDigits : List Char → Option Nat
  | [] => none
  | cs =>
    if cs.all Char.isDigit then
      some (cs.foldl (fun a c => a * 10 + (c.toNat - 48)) 0)
    else
      none

/-- Python `int(s)`: optional surrounding whitespace, optional sign,
decimal digits.  (Python also accepts `_` digit separators; not modelled.) -/
def pyIntParse (s : String) : Option Int :=
  match (strTrim s).data with
  | '-' :: ds => (parseNatDigits ds).map fun n => -(n : Int)
  | '+' :: ds => (parseNatDigits ds).map fun n => (n : Int)
  | ds => (parseNatDigits ds).map fun n => (n : Int)

/-- Python `int(q)` on a float value: truncation toward zero. -/
def pyIntTrunc (q : ℚ) : Int :=
  if 0 ≤ q then ⌊q⌋ else ⌈q⌉

/-- Python `", ".join parts` etc. -/
def joinSep (sep : String) : List String → String
  | [] => ""
  | [s] => s
  | s :: rest => s ++ sep ++ joinSep sep rest

/-! ### A JSON value model (for `json.loads` in the stream decoder)

Python's `json.loads` is modelled by an executable recursive-descent parser
over `List Char`.  Numbers are kept as exact rationals (Python parses them to
`int`/`float`).  `\uXXXX` string escapes and the lenient `NaN`/`Infinity`
extensions are not modelled; the decoder claims never exercise them. -/

inductive JVal where
  | null : JVal
  | bool (b : Bool) : JVal
  | num (q : ℚ) : JVal
  | str (s : String) : JVal
  | arr (xs : List JVal) : JVal
  | obj (fields : List (String × JVal)) : JVal

/-- Dictionary lookup.  `json.loads` keeps the last of duplicate keys, so the
lookup returns the last binding. -/
def pyGet (o : List (String × JVal)) (k : String) : Option JVal :=
  (o.reverse.find? fun p => p.1 == k).map Prod.snd

/-- Python `parsed.get(k, d)`. -/
def pyGetD (o : List (String × JVal)) (k : String) (d : JVal) : JVal :=
  (pyGet o k).getD d

/-- Python truthiness of a JSON-derived value. -/
def pyTruthy : JVal → Bool
  | .null => false
  | .bool b => b
  | .num q => q ≠ 0
  | .str s => s ≠ ""
  | .arr xs => !xs.isEmpty
  | .obj fields => !fields.isEmpty

/-- Parse a JSON string body after the opening quote.  Common escapes only. -/
def parseJStrAux : Nat → List Char → List Char → Option (String × List Char)
  | 0, _, _ => none
  | _ + 1, [], _ => none
  | f + 1, c :: rest, acc =>
    if c == '"' then
      some (String.mk acc.reverse, rest)
    else if c == '\\' then
      match rest with
      | [] => none
      | e :: rest2 =>
        if e == '"' then parseJStrAux f rest2 ('"' :: acc)
        else if e == '\\' then parseJStrAux f rest2 ('\\' :: acc)
        else if e == '/' then parseJStrAux f rest2 ('/' :: acc)
        else if e == 'n' then parseJStrAux f rest2 ('\n' :: acc)
        else if e == 't' then parseJStrAux f rest2 ('\t' :: acc)
        else if e == 'r' then parseJStrAux f rest2 ('\r' :: acc)
        else if e == 'b' then parseJStrAux f rest2 ('\x08' :: acc)
        else if e == 'f' then parseJStrAux f rest2 ('\x0c' :: acc)
        else none
    else
      parseJStrAux f rest (c :: acc)

/-- Digits of a digit list as a natural number. -/
def digitsToNat (ds : List Char) : Nat :=
  ds.foldl (fun a c => a * 10 + (c.toNat - 48)) 0

/-- Parse a JSON number (sign, integral part, optional fraction and
exponent) to an exact rational. -/
def parseJNum (cs : List Char) : Option (ℚ × List Char) :=
  let (neg, cs1) :=
    match cs with
    | '-' :: rest => (true, rest)
    | _ => (false, cs)
  let (ds, cs2) := cs1.span Char.isDigit
  if ds.isEmpty then none
  else
    let ipart : ℚ := (digitsToNat ds : ℚ)
    let (fpart, cs3) :=
      match cs2 with
      | '.' :: rest =>
        let (fs, rest2) := rest.span Char.isDigit
        if fs.isEmpty then ((none : Option ℚ), cs2)
        else (some ((digitsToNat fs : ℚ) / (10 : ℚ) ^ fs.length), rest2)
      | _ => (none, cs2)
    match fpart with
    | none =>
      let base := if neg then -ipart else ipart
      parseJNumExp base cs3
    | some fq =>
      let mag := ipart + fq
      let base := if neg then -mag else mag
      parseJNumExp base cs3
where
  /-- Optional exponent suffix. -/
  parseJNumExp (base : ℚ) (cs : List Char) : Option (ℚ × List Char) :=
    match cs with
    | 'e' :: rest => parseJNumExpSigned base rest
    | 'E' :: rest => parseJNumExpSigned base rest
    | _ => some (base, cs)
  parseJNumExpSigned (base : ℚ) (cs : List Char) : Option (ℚ × List Char) :=
    let (eneg, cs1) :=
      match cs with
      | '-' :: rest => (true, rest)
      | '+' :: rest => (false, rest)
      | _ => (false, cs)
    let (es, cs2) := cs1.span Char.isDigit
    if es.isEmpty then none
    else
      let e := digitsToNat es
      some (if eneg then base / (10 : ℚ) ^ e else base * (10 : ℚ) ^ e, cs2)

/-- Expect a literal word (used for `true`, `false`, `null`). -/
def parseJLit : List Char → List Char → Option (List Char)
  | [], cs => some cs
  | _ :: _, [] => none
  | l :: ls, c :: cs => if c == l then parseJLit ls cs else none

mutual

/-- One JSON value, fuel-based recursive descent. -/
def parseJVal : Nat → List Char → Option (JVal × List Char)
  | 0, _ => none
  | f + 1, cs =>
    match dropLeadingWs cs with
    | [] => none
    | c :: rest =>
      if c == '"' then
        (parseJStrAux (rest.length + 1) rest []).map fun (s, r) => (.str s, r)
      else if c == 't' then
        (parseJLit ['r', 'u', 'e'] rest).map fun r => (.bool true, r)
      else if c == 'f' then
        (parseJLit ['a', 'l', 's', 'e'] rest).map fun r => (.bool false, r)
      else if c == 'n' then
        (parseJLit ['u', 'l', 'l'] rest).map fun r => (.null, r)
      else if c == '[' then
        match dropLeadingWs rest with
        | ']' :: r2 => some (.arr [], r2)
        | r2 => parseJArrItems f r2 []
      else if c == '\x7b' then
        match dropLeadingWs rest with
        | '\x7d' :: r2 => some (.obj [], r2)
        | r2 => parseJObjItems f r2 []
      else
        (parseJNum (c :: rest)).map fun (q, r) => (.num q, r)

/-- Array elements after `[`, accumulating in reverse. -/
def parseJArrItems : Nat → List Char → List JVal → Option (JVal × List Char)
  | 0, _, _ => none
  | f + 1, cs, acc =>
    match parseJVal f cs with
    | none => none
    | some (v, r) =>
      match dropLeadingWs r with
      | ',' :: r2 => parseJArrItems f r2 (v :: acc)
      | ']' :: r2 => some (.arr (v :: acc).reverse, r2)
      | _ => none

/-- Object members after the opening brace, accumulating in reverse. -/
def parseJObjItems : Nat → List Char → List (String × JVal) → Option (JVal × List Char)
  | 0, _, _ => none
  | f + 1, cs, acc =>
    match dropLeadingWs cs with
    | '"' :: r1 =>
      match parseJStrAux (r1.length + 1) r1 [] with
      | none => none
      | some (k, r2) =>
        match dropLeadingWs r2 with
        | ':' :: r3 =>
          match parseJVal f r3 with
          | none => none
          | some (v, r4) =>
            match dropLeadingWs r4 with
            | ',' :: r5 => parseJObjItems f r5 ((k, v) :: acc)
            | '\x7d' :: r5 => some (.obj ((k, v) :: acc).reverse, r5)
            | _ => none
        | _ => none
    | _ => none

end

/-- `json.loads`: the whole (whitespace-trimmed) input must be one value. -/
def jsonParse (s : String) : Option JVal :=
  match parseJVal (s.data.length + 8) s.data with
  | some (v, rest) => if (dropLeadingWs rest).isEmpty then some v else none
  | none => none

/-! ### Python rendering helpers (`str`, `repr`, `json.dumps`, `format`) -/

/-- Rendering of a number under `str()`/f-strings.  Integral values render
exactly; non-integral floats use Python's shortest-double repr, which is
approximated here by `num/den` (no claim inspects such a rendering). -/
def pyNumRepr (q : ℚ) : String :=
  if q.den == 1 then toString q.num
  else toString q.num ++ "/" ++ toString q.den

/-- Escape for `json.dumps` string output (quote and backslash; control and
non-ASCII escapes are not modelled — no claim inspects them). -/
def jsonEscape (s : String) : String :=
  String.mk (s.data.foldr
    (fun c acc =>
      if c == '"' then '\\' :: '"' :: acc
      else if c == '\\' then '\\' :: '\\' :: acc
      else c :: acc)
    [])

mutual

/-- `json.dumps` with the default `", "`/`": "` separators. -/
def dumpJVal : JVal → String
  | .null => "null"
  | .bool b => if b then "true" else "false"
  | .num q => pyNumRepr q
  | .str s => "\"" ++ jsonEscape s ++ "\""
  | .arr xs => "[" ++ joinSep ", " (dumpJList xs) ++ "]"
  | .obj fs => "\x7b" ++ joinSep ", " (dumpJFields fs) ++ "\x7d"

def dumpJList : List JVal → List String
  | [] => []
  | v :: vs => dumpJVal v :: dumpJList vs

def dumpJFields : List (String × JVal) → List String
  | [] => []
  | (k, v) :: fs => ("\"" ++ jsonEscape k ++ "\": " ++ dumpJVal v) :: dumpJFields fs

end

mutual

/-- Python `repr` of a JSON-derived value (string quoting approximated with
plain single quotes; no claim inspects a repr). -/
def pyRepr : JVal → String
  | .null => "None"
  | .bool b => if b then "True" else "False"
  | .num q => pyNumRepr q
  | .str s => "'" ++ s ++ "'"
  | .arr xs => "[" ++ joinSep ", " (pyReprList xs) ++ "]"
  | .obj fs => "\x7b" ++ joinSep ", " (pyReprFields fs) ++ "\x7d"

def pyReprList : List JVal → List String
  | [] => []
  | v :: vs => pyRepr v :: pyReprList vs

def pyReprFields : List (String × JVal) → List String
  | [] => []
  | (k, v) :: fs => ("'" ++ k ++ "': " ++ pyRepr v) :: pyReprFields fs

end

/-- Python `str()` of a JSON-derived value. -/
def pyStr : JVal → String
  | .str s => s
  | v => pyRepr v

/-- Fixed-point formatting `f"{q:.d f}"`.  Rounds half away from zero
(Python rounds the binary double half-to-even; the difference is not
exercised by any claim). -/
def fmtFixed (decs : Nat) (q : ℚ) : String :=
  let neg := q < 0
  let scaled := |q| * (10 : ℚ) ^ decs
  let n : Int := ⌊scaled + 1 / 2⌋
  let ip := n / (10 : Int) ^ decs
  let fp := (n % (10 : Int) ^ decs).toNat
  let fs := toString fp
  let pad := String.mk (List.replicate (decs - fs.length) '0')
  (if neg then "-" else "") ++ toString ip ++ "." ++ pad ++ fs

/-- A numeric value for Python arithmetic (`int` and `float`; Python `bool`
is an `int` subclass). -/
def jNumVal : JVal → Option ℚ
  | .num q => some q
  | .bool b => some (if b then 1 else 0)
  | _ => none

/-- Python `float(v)`: numbers and bools convert; a string is parsed as a
decimal literal (surrounding whitespace stripped); anything else raises. -/
def pyFloatVal : JVal → Option ℚ
  | .num q => some q
  | .bool b => some (if b then 1 else 0)
  | .str s =>
    match parseJNum (strTrim s).data with
    | some (q, rest) => if rest.isEmpty then some q else none
    | none => none
  | _ => none

/-! ### The event stream decoder (`AgentService`, platform variant)

`_parse_stream_line`, `_extract_text`, `_summarize_tool_input`,
`_extract_tool_output` and the per-line body of `_stream_command` from
`src/platform/backend/services/agent_service.py`.  The effect of one line on
the loop state is reified as a `LineClass`; `on_event` is modelled as present
(as in `SessionService.run_agent`) and accumulates `(event_type, content)`
pairs.  A Python exception inside the loop body is reified as `LineClass.exc`
(its `str(e)` text is approximated by the exception class name; no claim
inspects it). -/

/-- `AgentService._parse_stream_line`. -/
def parseStreamLine (line : String) : Option JVal :=
  let l := strTrim line
  if l == "" then none
  else
    match jsonParse l with
    | some v => some v
    | none =>
      if !(strStartsWith l "\x7b") then
        some (.obj [("type", .str "assistant"), ("content", .str l)])
      else
        none

/-- The text blocks of a list-shaped `content` in `_extract_text`:
`text`-typed dict blocks contribute their `text` field, bare strings
contribute themselves, other blocks are skipped.  `none` models the
`TypeError` that `"\n".join` raises on a non-string `text` field. -/
def textBlocks : List JVal → Option (List String)
  | [] => some []
  | b :: bs =>
    let restM := textBlocks bs
    match b with
    | .obj bf =>
      match pyGet bf "type" with
      | some (.str "text") =>
        match pyGetD bf "text" (.str "") with
        | .str s => restM.map (s :: ·)
        | _ => none
      | _ => restM
    | .str s => restM.map (s :: ·)
    | _ => restM

/-- `AgentService._extract_text`. -/
def extractText (o : List (String × JVal)) : Option String :=
  match pyGet o "content" with
  | some (.str s) => some s
  | some (.arr blocks) => (textBlocks blocks).map (joinSep "\n")
  | _ =>
    match pyGet o "message" with
    | some v => some (pyStr v)
    | none =>
      match pyGet o "text" with
      | some v => some (pyStr v)
      | none => some ""

/-- One block of a list-shaped tool output in `_extract_tool_output`. -/
def toolOutputBlock : JVal → Option String
  | .obj bf =>
    match pyGet bf "text" with
    | some (.str s) => some s
    | some _ => none
    | none =>
      match pyGet bf "content" with
      | some (.str s) => some s
      | some _ => none
      | none => some (pyRepr (.obj bf))
  | b => some (pyStr b)

def toolOutputBlocks : List JVal → Option (List String)
  | [] => some []
  | b :: bs =>
    match toolOutputBlock b, toolOutputBlocks bs with
    | some s, some rest => some (s :: rest)
    | _, _ => none

/-- `AgentService._extract_tool_output`. -/
def extractToolOutput (o : List (String × JVal)) : Option String :=
  match pyGetD o "output" (pyGetD o "content" (.str "")) with
  | .str s => some s
  | .arr blocks => (toolOutputBlocks blocks).map (joinSep "\n")
  | v => some (pyStr v)

/-- `AgentService._summarize_tool_input`. -/
def summarizeToolInput (o : List (String × JVal)) : String :=
  match pyGetD o "input" (pyGetD o "tool_input" (.obj [])) with
  | .str s => strTake 200 s
  | .obj fs =>
    match pyGet fs "command" with
    | some v => strTake 200 (pyStr v)
    | none =>
      match pyGet fs "file_path" with
      | some v => strTake 200 ("File: " ++ pyStr v)
      | none =>
        match pyGet fs "path" with
        | some v => strTake 200 ("Path: " ++ pyStr v)
        | none =>
          match pyGet fs "pattern" with
          | some v => strTake 200 ("Search: " ++ pyStr v)
          | none => strTake 200 (dumpJVal (.obj fs))
  | v => strTake 200 (pyStr v)

/-- The per-line effect on the `_stream_command` loop state:
`newText` re-assigns `result_text` (when the extracted text is non-empty),
`newTokens` re-assigns the token totals (on a `result` message),
`toolInc` increments the tool-use counter, and `events` are the `on_event`
deliveries of this line. -/
structure LineEff where
  newText : Option String
  newTokens : Option (ℚ × ℚ)
  toolInc : Nat
  events : List (String × String)
deriving DecidableEq, Repr

/-- The classification of one streamed line by the `_stream_command` body. -/
inductive LineClass where
  | exitLine (c : Int) : LineClass
  | exitBad (msg : String) : LineClass
  | execError (msg : String) : LineClass
  | exc (msg : String) : LineClass
  | eff (e : LineEff) : LineClass
deriving DecidableEq, Repr

def noEff : LineEff := ⟨none, none, 0, []⟩

def sentinelExitTag : String := "__EXIT_CODE__:"

def sentinelErrTag : String := "__EXEC_ERROR__:"

/-- The branch dispatch of `_stream_command` on a parsed JSON object. -/
def classifyObj (o : List (String × JVal)) : LineClass :=
  let msgType : Option String :=
    match pyGetD o "type" (.str "") with
    | .str s => some s
    | _ => none
  if msgType == some "assistant" then
    match extractText o with
    | none => .exc "TypeError"
    | some content =>
      .eff ⟨if content ≠ "" then some content else none, none, 0,
            if content ≠ "" then [("agent_message", content)] else []⟩
  else if msgType == some "tool_use" then
    let toolName := pyStr (pyGetD o "tool" (pyGetD o "name" (.str "unknown")))
    .eff ⟨none, none, 1,
          [("agent_action", "[" ++ toolName ++ "] " ++ summarizeToolInput o)]⟩
  else if msgType == some "tool_result" then
    match extractToolOutput o with
    | none => .exc "TypeError"
    | some out =>
      .eff ⟨none, none, 0,
            if out ≠ "" then [("command_output", strTake 800 out)] else []⟩
  else if msgType == some "result" then
    match extractText o with
    | none => .exc "TypeError"
    | some txt =>
      match jNumVal (pyGetD o "input_tokens" (.num 0)),
            jNumVal (pyGetD o "output_tokens" (.num 0)) with
      | some ti, some tout =>
        let costRaw := pyGetD o "cost_usd" .null
        let cost := if pyTruthy costRaw then costRaw else pyGetD o "cost" (.num 0)
        let costPartM : Option (Option String) :=
          if pyTruthy cost then
            match pyFloatVal cost with
            | some cq => some (some ("Cost: $" ++ fmtFixed 4 cq))
            | none => none
          else
            some none
        match costPartM with
        | none => .exc "ValueError"
        | some costPart =>
          let parts :=
            (match costPart with | some p => [p] | none => []) ++
            (if ti ≠ 0 ∨ tout ≠ 0 then ["Tokens: " ++ pyNumRepr (ti + tout)] else [])
          .eff ⟨if txt ≠ "" then some txt else none, some (ti, tout), 0,
                if parts ≠ [] then
                  [("agent_message", "Stats: " ++ joinSep ", " parts)]
                else
                  []⟩
      | _, _ => .exc "TypeError"
  else if msgType == some "error" then
    let v := pyGetD o "error" (pyGetD o "message" (.str (pyRepr (.obj o))))
    .eff ⟨none, none, 0, [("error", pyStr v)]⟩
  else
    let raw := pyGetD o "content" (pyGetD o "message" (.str ""))
    .eff ⟨none, none, 0,
          if pyTruthy raw then [("agent_message", strTake 500 (pyStr raw))] else []⟩

/-- The full per-line dispatch of `_stream_command`: exit-code sentinel,
exec-error sentinel, then JSON decoding.  `line.split(":", 1)[1]` equals
dropping the 14- or 15-character sentinel tag, since the guard pins the
first colon inside the tag. -/
def classifyLine (line : String) : LineClass :=
  if strStartsWith line sentinelExitTag then
    match pyIntParse (strDrop 14 line) with
    | some c => .exitLine c
    | none => .exitBad ("invalid literal for int() with base 10: " ++ strDrop 14 line)
  else if strStartsWith line sentinelErrTag then
    .execError (strDrop 15 line)
  else
    match parseStreamLine line with
    | none => .eff noEff
    | some (.obj o) => classifyObj o
    | some _ => .exc "AttributeError"

/-- The mutable locals of the `_stream_command` loop. -/
structure StreamSt where
  exitCode : Int
  totalIn : ℚ
  totalOut : ℚ
  resultText : String
  toolUses : Nat
deriving DecidableEq, Repr

def initStreamSt : StreamSt := ⟨0, 0, 0, "", 0⟩

def applyEff (st : StreamSt) (e : LineEff) : StreamSt :=
  { exitCode := st.exitCode
    totalIn := match e.newTokens with | some (ti, _) => ti | none => st.totalIn
    totalOut := match e.newTokens with | some (_, t) => t | none => st.totalOut
    resultText := match e.newText with | some t => t | none => st.resultText
    toolUses := st.toolUses + e.toolInc }

/-- The aggregated result of `AgentService._stream_command`; early returns
carry no `tool_uses` key, hence the `Option`. -/
structure AgentResult where
  success : Bool
  summary : String
  tokensUsed : ℚ
  exitCode : Int
  toolUses : Option Nat
deriving DecidableEq, Repr

/-- The `_stream_command` loop over the observed lines, threading the loop
state and the `on_event` deliveries. -/
def streamLoop : List String → StreamSt → List (String × String) →
    AgentResult × List (String × String)
  | [], st, evs =>
    let success := st.exitCode == 0
    let statusMsg :=
      if success then "completed successfully"
      else "exited with code " ++ toString st.exitCode
    let evs :=
      evs ++ [("agent_message",
               "Agent " ++ statusMsg ++ ". Tool calls: " ++ toString st.toolUses)]
    let summary :=
      if st.resultText ≠ "" then strTake 500 st.resultText
      else if success then "Task completed" else "Task failed"
    (⟨success, summary, st.totalIn + st.totalOut, st.exitCode, some st.toolUses⟩, evs)
  | l :: rest, st, evs =>
    match classifyLine l with
    | .exitLine c => streamLoop rest { st with exitCode := c } evs
    | .exitBad m =>
      (⟨false, m, st.totalIn + st.totalOut, -1, none⟩,
       evs ++ [("error", "Agent error: " ++ m)])
    | .execError m =>
      (⟨false, "Execution error: " ++ m, 0, -1, none⟩,
       evs ++ [("error", "Execution error: " ++ m)])
    | .exc m =>
      (⟨false, m, st.totalIn + st.totalOut, -1, none⟩,
       evs ++ [("error", "Agent error: " ++ m)])
    | .eff e => streamLoop rest (applyEff st e) (evs ++ e.events)

/-- `AgentService._stream_command` as a function of the observed line
stream. -/
def streamCommand (lines : List String) : AgentResult × List (String × String) :=
  streamLoop lines initStreamSt []

/-! ### The streaming exec primitive (`ContainerService.exec_streaming`) -/

/-- The complete lines delivered by the chunk/buffer loop of
`exec_streaming` for a process whose whole decoded output is `full`:
every text before a newline, plus a final unterminated buffer if non-empty. -/
def bufferedLines (full : String) : List String :=
  let parts := splitOnStr "\n" full
  match parts.getLast? with
  | some "" => parts.dropLast
  | _ => parts

/-- The line stream observed by the consumer on the normal path: the
buffered output lines followed by the exit-code sentinel. -/
def execStreamingLines (fullOutput : String) (exitCode : Int) : List String :=
  bufferedLines fullOutput ++ [sentinelExitTag ++ toString exitCode]

/-- The line stream observed when the exec call itself raises after
emitting some lines: the partial lines followed by the exec-error
sentinel. -/
def execStreamingErrLines (alreadyEmitted : List String) (msg : String) : List String :=
  alreadyEmitted ++ [sentinelErrTag ++ msg]

/-! ### Commit and push (`ContainerService.git_commit_and_push`)

The five in-container commands (`git add -A`, `git diff --cached --stat`,
`git commit -m …`, `git push origin …`, `git rev-parse HEAD`) are oracle
parameters carrying their exit code and combined output; the function is the
pure control flow over those results.  `Except.error` models the raised
`RuntimeError`. -/

structure ExecResult where
  exitCode : Int
  output : String
deriving DecidableEq, Repr

structure PushResult where
  commitSha : String
  diffStat : String
  pushOutput : String
  filesChanged : ℕ
deriving DecidableEq, Repr

/-- The files-changed count computed from `git diff --cached --stat`:
non-blank lines containing a pipe. -/
def filesChangedCount (diffOutput : String) : ℕ :=
  ((splitOnStr "\n" (strTrim diffOutput)).filter
    fun l => (strTrim l != "") && strContains l "|").length

/-- `ContainerService.git_commit_and_push`.  A non-zero `git commit` whose
output contains `"nothing to commit"` is not an error: the flow continues to
the push and returns the current `HEAD` revision. -/
def gitCommitAndPush (addRes diffRes commitRes pushRes shaRes : ExecResult) :
    Except String PushResult :=
  if addRes.exitCode != 0 then
    .error ("Git add failed: " ++ addRes.output)
  else
    let filesChanged := filesChangedCount diffRes.output
    if commitRes.exitCode != 0 && !(strContains commitRes.output "nothing to commit") then
      .error ("Git commit failed: " ++ commitRes.output)
    else if pushRes.exitCode != 0 then
      .error ("Git push failed: " ++ pushRes.output)
    else
      .ok ⟨strTrim shaRes.output, diffRes.output, pushRes.output, filesChanged⟩

/-! ### The session record and the state machine steps (`SessionService`) -/

inductive SessionStatus where
  | pending
  | provisioning
  | running
  | agentWorking
  | pushing
  | completed
  | failed
  | cancelled
  | timedOut
deriving DecidableEq, Repr

/-- The mutable fields of a `DevSession` row touched by the orchestration
core (timestamps are rationals, wall-clock seconds). -/
structure DevSession where
  taskDescription : String
  branch : String
  status : SessionStatus
  containerId : Option String
  startedAt : Option ℚ
  endedAt : Option ℚ
  durationSeconds : Option ℚ
  costCents : Int
  tokensUsed : ℚ
  commitSha : Option String
  commitMessage : Option String
  filesChanged : Option ℕ
  errorMessage : Option String
deriving DecidableEq, Repr

/-- `SessionService.run_agent`'s updates of the session row, as a function
of the agent-runner outcome `res` (`Except.error` = `run_task` raised) and
the commit/push outcome `push` (consulted only on success).  `none` models
the `ValueError` raised when the session has no container (Python truthiness:
`None` or the empty string).  Events are modelled by `runAgentSeqs`. -/
def runAgentBranch (s1 : DevSession) (res : Except String AgentResult)
    (push : Except String PushResult) : DevSession :=
  match res with
  | .error e => { s1 with status := .failed, errorMessage := some e }
  | .ok r =>
    let sA := { s1 with tokensUsed := r.tokensUsed }
    if r.success then
      let sB := { sA with status := SessionStatus.pushing }
      match push with
      | .ok pr =>
        { sB with
          commitSha := some pr.commitSha
          commitMessage :=
            some ("[AdelBot/Claude Code] " ++ strTake 80 s1.taskDescription)
          filesChanged := some pr.filesChanged
          status := .completed }
      | .error perr =>
        if strContains (strToLower perr) "nothing to commit" then
          { sB with status := .completed }
        else
          { sB with status := .failed, errorMessage := some perr }
    else
      { sA with status := .failed, errorMessage := some r.summary }

/-- The wrapper of `run_agent`: container guard, the try/except body, then
the unconditional `ended_at`/`duration` assignment. -/
def runAgentUpdate (s : DevSession) (res : Except String AgentResult)
    (push : Except String PushResult) (now : ℚ) : Option DevSession :=
  match s.containerId with
  | none => none
  | some cid =>
    if cid == "" then
      none
    else
      let s2 := runAgentBranch { s with status := SessionStatus.agentWorking } res push
      some { s2 with
             endedAt := some now
             durationSeconds :=
               match s2.startedAt with
               | some t => some (now - t)
               | none => s2.durationSeconds }

/-- The row updates of `SessionService.cancel_session` before it calls
`finalize_session`: unconditionally set `cancelled` and `ended_at`, and
recompute the duration when `started_at` is set. -/
def cancelSessionUpdate (s : DevSession) (now : ℚ) : DevSession :=
  { s with
    status := SessionStatus.cancelled
    endedAt := some now
    durationSeconds :=
      match s.startedAt with
      | some t => some (now - t)
      | none => s.durationSeconds }

/-! ### Billing and finalization -/

inductive Tier where
  | free
  | pro
  | team
  | enterprise
deriving DecidableEq, Repr

/-- One row of `TIER_LIMITS` in `src/backend/models/billing.py`. -/
structure TierLimits where
  minutesPerMonth : Int
  maxConcurrentSessions : Int
  priceCents : Int
deriving DecidableEq, Repr

/-- The static `TIER_LIMITS` table (`-1` encodes unlimited). -/
def TIER_LIMITS : Tier → TierLimits
  | .free => ⟨60, 1, 0⟩
  | .pro => ⟨600, 3, 1999⟩
  | .team => ⟨3000, 10, 7999⟩
  | .enterprise => ⟨-1, -1, -1⟩

/-- The subscription fields read and written by the orchestration core. -/
structure Subscription where
  tier : Tier
  minutesUsed : ℚ
deriving DecidableEq, Repr

/-- A `BillingRecord` row as appended by `finalize_session` (always a
`session_charge`). -/
structure BillingRecord where
  amountCents : Int
  description : String
deriving DecidableEq, Repr

/-- The persistent state read and written by `finalize_session`: the session
row, the owner's subscription row (if any) and the billing ledger. -/
structure BillingState where
  session : DevSession
  subscription : Option Subscription
  billingRecords : List BillingRecord
deriving DecidableEq, Repr

/-- The default `settings.RATE_PER_MINUTE` (`$0.01` per minute). -/
def RATE_PER_MINUTE : ℚ := 1 / 100

/-- `SessionService.finalize_session`.  Container destruction is external
and error-swallowed (not modelled).  `if session.duration_seconds and
session.duration_seconds > 0` collapses to `0 < d` on a present duration;
`int(...)` is truncation toward zero; the appended record's description
uses the 1-decimal rendering of the minutes. -/
def finalizeSession (ratePerMinute : ℚ) (now : ℚ) (st : BillingState) : BillingState :=
  let s := st.session
  let step :=
    match s.durationSeconds with
    | some d =>
      if 0 < d then
        let durationMinutes := d / 60
        let costCents := pyIntTrunc (durationMinutes * ratePerMinute * 100)
        let sA := { s with costCents := costCents }
        let newRecord : BillingRecord :=
          ⟨costCents,
           "Claude Code session: " ++ fmtFixed 1 durationMinutes ++ " min — " ++
             strTake 50 s.taskDescription⟩
        (sA,
         st.subscription.map (fun (sb : Subscription) =>
           { sb with minutesUsed := sb.minutesUsed + durationMinutes }),
         st.billingRecords ++ [newRecord])
      else
        (s, st.subscription, st.billingRecords)
    | none => (s, st.subscription, st.billingRecords)
  let s2 :=
    if step.1.endedAt = none then { step.1 with endedAt := some now } else step.1
  ⟨s2, step.2.1, step.2.2⟩

/-- `SessionService.cancel_session`: the unconditional row updates followed
by `finalize_session`. -/
def cancelSession (ratePerMinute : ℚ) (now : ℚ) (st : BillingState) : BillingState :=
  finalizeSession ratePerMinute now
    { st with session := cancelSessionUpdate st.session now }

/-! ### Admission control (`SessionService._check_tier_limits`) -/

/-- The outcome dict of `_check_tier_limits`. -/
structure CheckResult where
  allowed : Bool
  reason : Option String
deriving DecidableEq, Repr

def allowedResult : CheckResult := ⟨true, none⟩

/-- The quota denial for a limits row. -/
def quotaDenied (limits : TierLimits) : CheckResult :=
  ⟨false, some ("Monthly limit of " ++ toString limits.minutesPerMonth ++
                " minutes reached. Please upgrade your plan.")⟩

/-- The concurrency denial for a limits row. -/
def concurrencyDenied (limits : TierLimits) : CheckResult :=
  ⟨false, some ("Max concurrent sessions (" ++ toString limits.maxConcurrentSessions ++
                ") reached.")⟩

/-- The second half of `_check_tier_limits`: the concurrency check, guarded
by `limits["max_concurrent_sessions"] > 0`. -/
def checkConcurrencyStage (limits : TierLimits) (activeCount : ℕ) : CheckResult :=
  if 0 < limits.maxConcurrentSessions then
    if limits.maxConcurrentSessions ≤ (activeCount : Int) then
      concurrencyDenied limits
    else
      allowedResult
  else
    allowedResult

/-- `_check_tier_limits` as a function of a limits row, the accumulated
minutes used this period and the count of active sessions: the quota check
(guarded by `limits["minutes_per_month"] > 0`) followed by the concurrency
check. -/
def checkLimitsStages (limits : TierLimits) (minutesUsed : ℚ) (activeCount : ℕ) :
    CheckResult :=
  if 0 < limits.minutesPerMonth then
    if (limits.minutesPerMonth : ℚ) ≤ minutesUsed then
      quotaDenied limits
    else
      checkConcurrencyStage limits activeCount
  else
    checkConcurrencyStage limits activeCount

/-- Statuses counted as active by the concurrency query. -/
def isActiveStatus : SessionStatus → Bool
  | .running => true
  | .agentWorking => true
  | .provisioning => true
  | _ => false

/-- `SessionService._check_tier_limits`: tier defaults to `free` without a
subscription, `minutes_used` defaults to `0`, and the active count is the
number of the user's sessions in `running`/`agent_working`/`provisioning`. -/
def checkTierLimits (sub : Option Subscription) (userSessions : List SessionStatus) :
    CheckResult :=
  let tier := match sub with | some sb => sb.tier | none => Tier.free
  let minutesUsed : ℚ := match sub with | some sb => sb.minutesUsed | none => 0
  checkLimitsStages (TIER_LIMITS tier) minutesUsed
    ((userSessions.filter isActiveStatus).length)

/-! ### Persisted event sequence numbers and the websocket resume query -/

/-- A persisted `SessionEvent` row (of one session). -/
structure SessionEv where
  seq : ℕ
  eventType : String
  content : String
deriving DecidableEq, Repr

/-- The branch taken by one background pipeline run
(`_run_session_pipeline` → `start_session` → `run_agent`). -/
inductive PipeOutcome where
  | provisionFailed
  | agentFailed
  | pushCompleted
  | pushRaised
deriving DecidableEq, Repr

/-- The sequence numbers persisted by `run_agent` when the agent callback
fired `n` times: the hard-coded `5`, the counter from `10`, then the
`Committing…` event and (unless commit+push raised a non-"nothing to
commit" error) the git-operation event. -/
def runAgentSeqs (n : ℕ) (o : PipeOutcome) : List ℕ :=
  [5] ++ List.range' 10 n ++
    (match o with
     | .agentFailed => []
     | .pushCompleted => [10 + n, 11 + n]
     | .pushRaised => [10 + n]
     | .provisionFailed => [])

/-- The sequence numbers persisted for one session by a full pipeline run:
`0` from `create_session`, `1` (and `2` on success) from `start_session`,
then `run_agent`'s events. -/
def pipelineSeqs (n : ℕ) (o : PipeOutcome) : List ℕ :=
  match o with
  | .provisionFailed => [0, 1]
  | _ => [0, 1, 2] ++ runAgentSeqs n o

/-- Gap-freeness of a sequence-number list: each successor is the
predecessor plus one. -/
def noGaps (l : List ℕ) : Prop :=
  List.Chain' (fun a b => b = a + 1) l

/-- Insertion into a sequence-sorted list (ascending). -/
def insertBySeq (e : SessionEv) : List SessionEv → List SessionEv
  | [] => [e]
  | x :: xs => if e.seq ≤ x.seq then e :: x :: xs else x :: insertBySeq e xs

/-- Ascending sort by sequence, modelling `ORDER BY sequence`. -/
def sortBySeq (l : List SessionEv) : List SessionEv :=
  l.foldr insertBySeq []

/-- The websocket resume query (`session_websocket`):
`SELECT … WHERE sequence > last_sequence ORDER BY sequence` over the
session's persisted events. -/
def wsNewEvents (events : List SessionEv) (lastSequence : ℕ) : List SessionEv :=
  sortBySeq (events.filter fun e => lastSequence < e.seq)

/-- A streamed line that is neither sentinel nor exception-raising: its
whole effect is a `LineEff`. -/
def plainLine (l : String) : Bool :=
  match classifyLine l with
  | .eff _ => true
  | _ => false

/-! ## Helper lemmas -/

theorem applyEff_exitCode (st : StreamSt) (e : LineEff) :
    (applyEff st e).exitCode = st.exitCode := rfl

theorem streamLoop_cons_eff {l : String} {e : LineEff}
    (h : classifyLine l = .eff e) (rest : List String) (st : StreamSt)
    (evs : List (String × String)) :
    streamLoop (l :: rest) st evs = streamLoop rest (applyEff st e) (evs ++ e.events) := by
  simp [streamLoop, h]

theorem streamLoop_cons_exit {l : String} {c : Int}
    (h : classifyLine l = .exitLine c) (rest : List String) (st : StreamSt)
    (evs : List (String × String)) :
    streamLoop (l :: rest) st evs = streamLoop rest { st with exitCode := c } evs := by
  simp [streamLoop, h]

theorem plainLine_eff {l : String} (h : plainLine l = true) :
    ∃ e, classifyLine l = .eff e := by
  unfold plainLine at h
  rcases hc : classifyLine l with c | m | m | m | e <;> rw [hc] at h <;> simp_all

theorem streamLoop_exit_general {el : String} {c : Int}
    (hel : classifyLine el = .exitLine c) :
    ∀ (lines : List String), (∀ l ∈ lines, plainLine l = true) →
      ∀ (st : StreamSt) (evs : List (String × String)),
        (streamLoop (lines ++ [el]) st evs).1.exitCode = c ∧
        ((streamLoop (lines ++ [el]) st evs).1.success = true ↔ c = 0) := by
  intro lines
  induction lines with
  | nil =>
    intro _ st evs
    rw [List.nil_append, streamLoop_cons_exit hel]
    refine ⟨rfl, ?_⟩
    simp [streamLoop]
  | cons l rest ih =>
    intro hplain st evs
    obtain ⟨e, he⟩ := plainLine_eff (hplain l (by simp))
    rw [List.cons_append, streamLoop_cons_eff he]
    exact ih (fun x hx => hplain x (by simp [hx])) _ _



theorem finalizeSession_duration (rate now : ℚ) (st : BillingState) :
    (finalizeSession rate now st).session.durationSeconds = st.session.durationSeconds := by
  obtain ⟨⟨task, br, stat, cid, sAt, eAt, dur, cost, tok, sha, cmsg, fc, err⟩, sub, recs⟩ := st
  rcases dur with _ | d
  · unfold finalizeSession
    dsimp only
    split <;> rfl
  · unfold finalizeSession
    dsimp only
    by_cases h0 : 0 < d
    · rw [if_pos h0]
      split <;> rfl
    · rw [if_neg h0]
      split <;> rfl

theorem finalizeSession_status (rate now : ℚ) (st : BillingState) :
    (finalizeSession rate now st).session.status = st.session.status := by
  obtain ⟨⟨task, br, stat, cid, sAt, eAt, dur, cost, tok, sha, cmsg, fc, err⟩, sub, recs⟩ := st
  rcases dur with _ | d
  · unfold finalizeSession
    dsimp only
    split <;> rfl
  · unfold finalizeSession
    dsimp only
    by_cases h0 : 0 < d
    · rw [if_pos h0]
      split <;> rfl
    · rw [if_neg h0]
      split <;> rfl

theorem finalizeSession_endedAt (rate now : ℚ) (st : BillingState) :
    (finalizeSession rate now st).session.endedAt =
      (if st.session.endedAt = none then some now else st.session.endedAt) := by
  obtain ⟨⟨task, br, stat, cid, sAt, eAt, dur, cost, tok, sha, cmsg, fc, err⟩, sub, recs⟩ := st
  rcases dur with _ | d
  · unfold finalizeSession
    dsimp only
    rcases eAt with _ | e <;> rfl
  · unfold finalizeSession
    dsimp only
    by_cases h0 : 0 < d
    · rw [if_pos h0]
      rcases eAt with _ | e <;> rfl
    · rw [if_neg h0]
      rcases eAt with _ | e <;> rfl

theorem finalizeSession_charge (rate now : ℚ) (st : BillingState) (d : ℚ)
    (h : st.session.durationSeconds = some d) (hd : 0 < d) :
    (finalizeSession rate now st).session.costCents = pyIntTrunc (d / 60 * rate * 100) ∧
    (finalizeSession rate now st).billingRecords =
      st.billingRecords ++
        [⟨pyIntTrunc (d / 60 * rate * 100),
          "Claude Code session: " ++ fmtFixed 1 (d / 60) ++ " min — " ++
            strTake 50 st.session.taskDescription⟩] ∧
    (finalizeSession rate now st).subscription =
      st.subscription.map (fun sb => { sb with minutesUsed := sb.minutesUsed + d / 60 }) := by
  obtain ⟨⟨task, br, stat, cid, sAt, eAt, dur, cost, tok, sha, cmsg, fc, err⟩, sub, recs⟩ := st
  dsimp only at h ⊢
  subst h
  unfold finalizeSession
  dsimp only
  rw [if_pos hd]
  refine ⟨?_, rfl, rfl⟩
  rcases eAt with _ | e <;> rfl

theorem finalizeSession_skip (rate now : ℚ) (st : BillingState)
    (h : ∀ d, st.session.durationSeconds = some d → ¬ 0 < d) :
    (finalizeSession rate now st).billingRecords = st.billingRecords ∧
    (finalizeSession rate now st).subscription = st.subscription := by
  obtain ⟨⟨task, br, stat, cid, sAt, eAt, dur, cost, tok, sha, cmsg, fc, err⟩, sub, recs⟩ := st
  rcases dur with _ | d
  · unfold finalizeSession
    dsimp only
    exact ⟨rfl, rfl⟩
  · unfold finalizeSession
    dsimp only
    rw [if_neg (h d rfl)]
    exact ⟨rfl, rfl⟩

theorem cancelSession_status (rate now : ℚ) (st : BillingState) :
    (cancelSession rate now st).session.status = SessionStatus.cancelled := by
  unfold cancelSession
  rw [finalizeSession_status]
  rfl

theorem runAgentBranch_startedAt (s1 : DevSession) (res : Except String AgentResult)
    (push : Except String PushResult) :
    (runAgentBranch s1 res push).startedAt = s1.startedAt := by
  unfold runAgentBranch
  rcases res with e | r
  · rfl
  · dsimp only
    split
    · split
      · rfl
      · split <;> rfl
    · rfl

theorem runAgentUpdate_fields (s : DevSession) (res : Except String AgentResult)
    (push : Except String PushResult) (now : ℚ) (cid : String)
    (hc : s.containerId = some cid) (hne : cid ≠ "") :
    runAgentUpdate s res push now =
      some { runAgentBranch { s with status := SessionStatus.agentWorking } res push with
             endedAt := some now
             durationSeconds :=
               match s.startedAt with
               | some t => some (now - t)
               | none =>
                 (runAgentBranch { s with status := SessionStatus.agentWorking } res
                     push).durationSeconds } := by
  unfold runAgentUpdate
  rw [hc]
  dsimp only
  rw [if_neg (by simp [hne])]
  rw [runAgentBranch_startedAt]

theorem chainLt_range'_append (tail : List ℕ) (htail : List.Chain' (· < ·) tail) :
    ∀ (n s : ℕ), (∀ x ∈ tail.head?, s + n ≤ x) →
      List.Chain' (· < ·) (List.range' s n ++ tail) ∧
      ∀ x ∈ (List.range' s n ++ tail).head?, s ≤ x := by
  intro n
  induction n with
  | zero =>
    intro s h
    refine ⟨by simpa using htail, ?_⟩
    intro x hx
    have := h x (by simpa using hx)
    omega
  | succ n ih =>
    intro s h
    have hr : List.range' s (n + 1) = s :: List.range' (s + 1) n := rfl
    have hih := ih (s + 1) (fun x hx => by have := h x hx; omega)
    constructor
    · rw [hr, List.cons_append]
      refine List.chain'_cons'.mpr ⟨?_, hih.1⟩
      intro y hy
      have := hih.2 y hy
      omega
    · intro x hx
      rw [hr, List.cons_append, List.head?_cons] at hx
      simp only [Option.mem_def, Option.some.injEq] at hx
      omega

theorem pipelineSeqs_pairwise (n : ℕ) (o : PipeOutcome) :
    List.Pairwise (· < ·) (pipelineSeqs n o) := by
  rw [← List.chain'_iff_pairwise]
  cases o with
  | provisionFailed =>
    show List.Chain' (· < ·) [0, 1]
    exact List.chain'_cons.mpr ⟨by omega, List.chain'_singleton _⟩
  | agentFailed =>
    show List.Chain' (· < ·) (0 :: 1 :: 2 :: 5 :: (List.range' 10 n ++ []))
    have h := chainLt_range'_append [] (by simp) n 10 (by simp)
    refine List.chain'_cons.mpr ⟨by omega, ?_⟩
    refine List.chain'_cons.mpr ⟨by omega, ?_⟩
    refine List.chain'_cons.mpr ⟨by omega, ?_⟩
    refine List.chain'_cons'.mpr ⟨?_, h.1⟩
    intro y hy
    have := h.2 y hy
    omega
  | pushCompleted =>
    show List.Chain' (· < ·) (0 :: 1 :: 2 :: 5 :: (List.range' 10 n ++ [10 + n, 11 + n]))
    have h := chainLt_range'_append [10 + n, 11 + n]
      (List.chain'_cons.mpr ⟨by omega, List.chain'_singleton _⟩) n 10
      (by intro x hx; simp only [List.head?_cons, Option.mem_def, Option.some.injEq] at hx; omega)
    refine List.chain'_cons.mpr ⟨by omega, ?_⟩
    refine List.chain'_cons.mpr ⟨by omega, ?_⟩
    refine List.chain'_cons.mpr ⟨by omega, ?_⟩
    refine List.chain'_cons'.mpr ⟨?_, h.1⟩
    intro y hy
    have := h.2 y hy
    omega
  | pushRaised =>
    show List.Chain' (· < ·) (0 :: 1 :: 2 :: 5 :: (List.range' 10 n ++ [10 + n]))
    have h := chainLt_range'_append [10 + n] (List.chain'_singleton _) n 10
      (by intro x hx; simp only [List.head?_cons, Option.mem_def, Option.some.injEq] at hx; omega)
    refine List.chain'_cons.mpr ⟨by omega, ?_⟩
    refine List.chain'_cons.mpr ⟨by omega, ?_⟩
    refine List.chain'_cons.mpr ⟨by omega, ?_⟩
    refine List.chain'_cons'.mpr ⟨?_, h.1⟩
    intro y hy
    have := h.2 y hy
    omega

theorem insertBySeq_of_le (x y : SessionEv) (ys : List SessionEv) (h : x.seq ≤ y.seq) :
    insertBySeq x (y :: ys) = x :: y :: ys := by
  unfold insertBySeq
  rw [if_pos h]

theorem sortBySeq_sorted_id : ∀ (l : List SessionEv),
    List.Pairwise (fun a b => a.seq ≤ b.seq) l → sortBySeq l = l
  | [], _ => rfl
  | x :: xs, h => by
    have hx := (List.pairwise_cons.mp h).1
    have htail := (List.pairwise_cons.mp h).2
    show insertBySeq x (sortBySeq xs) = x :: xs
    rw [sortBySeq_sorted_id xs htail]
    cases xs with
    | nil => rfl
    | cons y ys => exact insertBySeq_of_le x y ys (hx y (by simp))

theorem wsNewEvents_of_sorted (events : List SessionEv) (lastSeq : ℕ)
    (h : List.Pairwise (fun a b : SessionEv => a.seq < b.seq) events) :
    wsNewEvents events lastSeq = events.filter (fun e => lastSeq < e.seq) := by
  unfold wsNewEvents
  apply sortBySeq_sorted_id
  exact ((h.sublist (List.filter_sublist _)).imp fun hab => le_of_lt hab)

theorem gitCommitAndPush_nothing (addRes diffRes commitRes pushRes shaRes : ExecResult)
    (ha : addRes.exitCode = 0)
    (hmsg : strContains commitRes.output "nothing to commit" = true)
    (hp : pushRes.exitCode = 0) :
    gitCommitAndPush addRes diffRes commitRes pushRes shaRes =
      .ok ⟨strTrim shaRes.output, diffRes.output, pushRes.output,
           filesChangedCount diffRes.output⟩ := by
  unfold gitCommitAndPush
  rw [ha, hp]
  simp [hmsg]

theorem runAgentBranch_push_ok (s1 : DevSession) (r : AgentResult) (pr : PushResult)
    (hs : r.success = true) :
    runAgentBranch s1 (.ok r) (.ok pr) =
      { s1 with
        tokensUsed := r.tokensUsed
        commitSha := some pr.commitSha
        commitMessage := some ("[AdelBot/Claude Code] " ++ strTake 80 s1.taskDescription)
        filesChanged := some pr.filesChanged
        status := SessionStatus.completed } := by
  unfold runAgentBranch
  dsimp only
  rw [if_pos hs]

/-! ## The claims -/

/-- C1 (counterexample): `finalize_session` is not idempotent.  On a session
with a positive recorded duration (120 s at the default rate, with a
subscription at 0 minutes used), calling `finalize_session` twice appends
two billing records — not exactly one — and adds the 2 minutes to the
subscription's period counter twice (4 total). -/
theorem c1_counterexample :
    (finalizeSession RATE_PER_MINUTE 500 (finalizeSession RATE_PER_MINUTE 400
        ⟨⟨"add a README", "main", .failed, none, some 100, some 220, some 120,
          0, 0, none, none, none, none⟩, some ⟨.free, 0⟩, []⟩)).billingRecords.length = 2 ∧
    (finalizeSession RATE_PER_MINUTE 500 (finalizeSession RATE_PER_MINUTE 400
        ⟨⟨"add a README", "main", .failed, none, some 100, some 220, some 120,
          0, 0, none, none, none, none⟩, some ⟨.free, 0⟩, []⟩)).subscription =
      some ⟨.free, 4⟩ ∧
    ¬ ((finalizeSession RATE_PER_MINUTE 500 (finalizeSession RATE_PER_MINUTE 400
        ⟨⟨"add a README", "main", .failed, none, some 100, some 220, some 120,
          0, 0, none, none, none, none⟩, some ⟨.free, 0⟩, []⟩)).billingRecords.length = 1) := by
  have h1 := finalizeSession_charge RATE_PER_MINUTE 400
    ⟨⟨"add a README", "main", .failed, none, some 100, some 220, some 120,
      0, 0, none, none, none, none⟩, some ⟨.free, 0⟩, []⟩ 120 rfl (by norm_num)
  have hdur := finalizeSession_duration RATE_PER_MINUTE 400
    ⟨⟨"add a README", "main", .failed, none, some 100, some 220, some 120,
      0, 0, none, none, none, none⟩, some ⟨.free, 0⟩, []⟩
  have h2 := finalizeSession_charge RATE_PER_MINUTE 500 (finalizeSession RATE_PER_MINUTE 400
    ⟨⟨"add a README", "main", .failed, none, some 100, some 220, some 120,
      0, 0, none, none, none, none⟩, some ⟨.free, 0⟩, []⟩) 120 (by rw [hdur]) (by norm_num)
  refine ⟨?_, ?_, ?_⟩
  · rw [h2.2.1, h1.2.1]
    simp
  · rw [h2.2.2, h1.2.2]
    simp only [Option.map_some']
    norm_num
  · rw [h2.2.1, h1.2.1]
    simp

/-- C1 (amended): the claim fails on the code — `finalize_session` has no
guard on an already-computed cost, and the route layer can invoke it more
than once for one session (an explicit cancellation plus the background
pipeline's own finalize, or the pipeline's exception handler after a failed
commit).  Each call on a session with positive recorded duration appends one
more billing record and adds the minutes again: two calls append two records
and double-add the minutes. -/
theorem c1_finalize_double_charges (rate now1 now2 : ℚ) (st : BillingState) (d : ℚ)
    (h : st.session.durationSeconds = some d) (hd : 0 < d) :
    (finalizeSession rate now1 st).billingRecords.length = st.billingRecords.length + 1 ∧
    (finalizeSession rate now2 (finalizeSession rate now1 st)).billingRecords.length =
      st.billingRecords.length + 2 ∧
    ∀ (t : Tier) (m : ℚ), st.subscription = some ⟨t, m⟩ →
      (finalizeSession rate now2 (finalizeSession rate now1 st)).subscription =
        some ⟨t, m + d / 60 + d / 60⟩ := by
  have h1 := finalizeSession_charge rate now1 st d h hd
  have hdur : (finalizeSession rate now1 st).session.durationSeconds = some d := by
    rw [finalizeSession_duration]
    exact h
  have h2 := finalizeSession_charge rate now2 (finalizeSession rate now1 st) d hdur hd
  refine ⟨?_, ?_, ?_⟩
  · rw [h1.2.1]
    simp
  · rw [h2.2.1, h1.2.1]
    simp
  · intro t m hsub
    rw [h2.2.2, h1.2.2, hsub]
    rfl

/-- C1 (witness): the amended theorem at the concrete double-finalized
session. -/
theorem c1_witness :
    (finalizeSession RATE_PER_MINUTE 500 (finalizeSession RATE_PER_MINUTE 400
        ⟨⟨"add a README", "main", .failed, none, some 100, some 220, some 120,
          0, 0, none, none, none, none⟩, some ⟨.free, 0⟩, []⟩)).billingRecords.length =
      (⟨⟨"add a README", "main", .failed, none, some 100, some 220, some 120,
          0, 0, none, none, none, none⟩, some ⟨.free, 0⟩, []⟩ :
        BillingState).billingRecords.length + 2 :=
  (c1_finalize_double_charges RATE_PER_MINUTE 400 500 _ 120 rfl (by norm_num)).2.1

/-- C2 (counterexample): `ended_at` and `duration` are not always set
together.  Finalizing a session that failed before any duration was recorded
(`started_at` set, `ended_at` and `duration` unset — the state left by a
provisioning failure) sets `ended_at` while leaving `duration` unset. -/
theorem c2_counterexample :
    (finalizeSession RATE_PER_MINUTE 400
        ⟨⟨"t", "main", .failed, none, some 100, none, none, 0, 0,
          none, none, none, none⟩, none, []⟩).session.endedAt = some 400 ∧
    (finalizeSession RATE_PER_MINUTE 400
        ⟨⟨"t", "main", .failed, none, some 100, none, none, 0, 0,
          none, none, none, none⟩, none, []⟩).session.durationSeconds = none := by
  constructor
  · rw [finalizeSession_endedAt]
    rfl
  · rw [finalizeSession_duration]

/-- C2 (amended): on the paths that record an outcome — `run_agent` and
`cancel_session` — `ended_at` and `duration` are set together (whenever
`started_at` is set); `finalize_session` never changes `duration`, never
overwrites an already-set `ended_at`, and as a backstop sets `ended_at`
alone when an earlier step omitted it (so a session that failed before
recording a duration ends with `ended_at` set but no `duration`, and a
terminal status can transiently precede `ended_at`). -/
theorem c2_ended_at_with_duration (s : DevSession) (res : Except String AgentResult)
    (push : Except String PushResult) (now t : ℚ) (cid : String)
    (hc : s.containerId = some cid) (hcne : cid ≠ "") (hst : s.startedAt = some t) :
    ((runAgentUpdate s res push now).map DevSession.endedAt = some (some now) ∧
     (runAgentUpdate s res push now).map DevSession.durationSeconds =
       some (some (now - t))) ∧
    ((cancelSessionUpdate s now).endedAt = some now ∧
     (cancelSessionUpdate s now).durationSeconds = some (now - t)) ∧
    (∀ (rate : ℚ) (st : BillingState),
       (finalizeSession rate now st).session.durationSeconds =
         st.session.durationSeconds ∧
       (finalizeSession rate now st).session.endedAt ≠ none ∧
       (∀ e, st.session.endedAt = some e →
          (finalizeSession rate now st).session.endedAt = some e)) := by
  refine ⟨?_, ?_, ?_⟩
  · rw [runAgentUpdate_fields s res push now cid hc hcne, hst]
    exact ⟨rfl, rfl⟩
  · unfold cancelSessionUpdate
    refine ⟨rfl, ?_⟩
    show (match s.startedAt with
          | some t => some (now - t)
          | none => s.durationSeconds) = some (now - t)
    rw [hst]
  · intro rate st
    refine ⟨finalizeSession_duration rate now st, ?_, ?_⟩
    · rw [finalizeSession_endedAt]
      split <;> simp_all
    · intro e he
      rw [finalizeSession_endedAt, he]
      rw [if_neg (by simp)]

/-- C2 (witness): the amended theorem at a concrete running session. -/
theorem c2_witness :
    (runAgentUpdate
        ⟨"t", "main", .running, some "cid", some 100, none, none, 0, 0,
         none, none, none, none⟩
        (.ok ⟨true, "ok", 0, 0, some 0⟩) (.ok ⟨"sha", "", "", 0⟩) 160).map
      DevSession.endedAt = some (some 160) :=
  (c2_ended_at_with_duration
    ⟨"t", "main", .running, some "cid", some 100, none, none, 0, 0,
     none, none, none, none⟩
    (.ok ⟨true, "ok", 0, 0, some 0⟩) (.ok ⟨"sha", "", "", 0⟩) 160 100 "cid"
    rfl (by decide) rfl).1.1

/-- C3 (counterexample): the "nothing to commit" condition is detected
inside `git_commit_and_push`, which does not raise but pushes and returns
the current `HEAD` revision; the session completes with `commit_sha` set to
that pre-existing commit — not absent/empty as claimed. -/
theorem c3_counterexample :
    gitCommitAndPush ⟨0, ""⟩ ⟨0, ""⟩
        ⟨1, "On branch main\nnothing to commit, working tree clean"⟩
        ⟨0, "Everything up-to-date"⟩ ⟨0, "a1b2c3d4e5\n"⟩ =
      .ok ⟨"a1b2c3d4e5", "", "Everything up-to-date", 0⟩ ∧
    (runAgentUpdate
        ⟨"add docs", "main", .running, some "cid", some 100, none, none, 0, 0,
         none, none, none, none⟩
        (.ok ⟨true, "done", 50, 0, some 2⟩)
        (gitCommitAndPush ⟨0, ""⟩ ⟨0, ""⟩
          ⟨1, "On branch main\nnothing to commit, working tree clean"⟩
          ⟨0, "Everything up-to-date"⟩ ⟨0, "a1b2c3d4e5\n"⟩) 160).map
      DevSession.status = some SessionStatus.completed ∧
    (runAgentUpdate
        ⟨"add docs", "main", .running, some "cid", some 100, none, none, 0, 0,
         none, none, none, none⟩
        (.ok ⟨true, "done", 50, 0, some 2⟩)
        (gitCommitAndPush ⟨0, ""⟩ ⟨0, ""⟩
          ⟨1, "On branch main\nnothing to commit, working tree clean"⟩
          ⟨0, "Everything up-to-date"⟩ ⟨0, "a1b2c3d4e5\n"⟩) 160).map
      DevSession.commitSha = some (some "a1b2c3d4e5") ∧
    some "a1b2c3d4e5" ≠ (none : Option String) ∧ "a1b2c3d4e5" ≠ "" := by
  have htrim : strTrim "a1b2c3d4e5\n" = "a1b2c3d4e5" := by decide
  have hfc : filesChangedCount "" = 0 := by decide
  have hpush : gitCommitAndPush ⟨0, ""⟩ ⟨0, ""⟩
      ⟨1, "On branch main\nnothing to commit, working tree clean"⟩
      ⟨0, "Everything up-to-date"⟩ ⟨0, "a1b2c3d4e5\n"⟩ =
      .ok ⟨"a1b2c3d4e5", "", "Everything up-to-date", 0⟩ := by
    rw [gitCommitAndPush_nothing _ _ _ _ _ rfl (by decide) rfl, htrim, hfc]
  refine ⟨hpush, ?_, ?_, by decide, by decide⟩
  · rw [hpush, runAgentUpdate_fields _ _ _ _ "cid" rfl (by decide),
      runAgentBranch_push_ok _ _ _ rfl]
    rfl
  · rw [hpush, runAgentUpdate_fields _ _ _ _ "cid" rfl (by decide),
      runAgentBranch_push_ok _ _ _ rfl]
    rfl

/-- C3 (amended): when `git commit` exits non-zero with "nothing to commit"
in its output (and add/push succeed), `git_commit_and_push` treats it as a
successful no-op — it does not raise — and returns the current `HEAD`;
`run_agent` then completes the session (status `completed`, not `failed`)
with `commit_sha` set to that pre-existing `HEAD` revision rather than
absent/empty.  (The `run_agent` fallback that completes without a
`commit_sha` fires only if `git_commit_and_push` raises with a message
containing "nothing to commit", which this path does not do.) -/
theorem c3_nothing_to_commit_completes (addRes diffRes commitRes pushRes shaRes : ExecResult)
    (ha : addRes.exitCode = 0) (_hcne : commitRes.exitCode ≠ 0)
    (hmsg : strContains commitRes.output "nothing to commit" = true)
    (hp : pushRes.exitCode = 0) :
    gitCommitAndPush addRes diffRes commitRes pushRes shaRes =
      .ok ⟨strTrim shaRes.output, diffRes.output, pushRes.output,
           filesChangedCount diffRes.output⟩ ∧
    ∀ (s : DevSession) (r : AgentResult) (now : ℚ) (cid : String),
      s.containerId = some cid → cid ≠ "" → r.success = true →
      (runAgentUpdate s (.ok r)
          (gitCommitAndPush addRes diffRes commitRes pushRes shaRes) now).map
        DevSession.status = some SessionStatus.completed ∧
      (runAgentUpdate s (.ok r)
          (gitCommitAndPush addRes diffRes commitRes pushRes shaRes) now).map
        DevSession.commitSha = some (some (strTrim shaRes.output)) := by
  have hpush := gitCommitAndPush_nothing addRes diffRes commitRes pushRes shaRes ha hmsg hp
  refine ⟨hpush, ?_⟩
  intro s r now cid hc hcnz hrs
  rw [hpush, runAgentUpdate_fields s _ _ now cid hc hcnz,
    runAgentBranch_push_ok _ _ _ hrs]
  exact ⟨rfl, rfl⟩

/-- C3 (witness): the amended theorem at the concrete no-op commit. -/
theorem c3_witness :
    gitCommitAndPush ⟨0, ""⟩ ⟨0, ""⟩
        ⟨1, "On branch main\nnothing to commit, working tree clean"⟩
        ⟨0, "Everything up-to-date"⟩ ⟨0, "a1b2c3d4e5\n"⟩ =
      .ok ⟨strTrim "a1b2c3d4e5\n", "", "Everything up-to-date",
           filesChangedCount ""⟩ :=
  (c3_nothing_to_commit_completes ⟨0, ""⟩ ⟨0, ""⟩
    ⟨1, "On branch main\nnothing to commit, working tree clean"⟩
    ⟨0, "Everything up-to-date"⟩ ⟨0, "a1b2c3d4e5\n"⟩
    rfl (by decide) (by decide) rfl).1

/-- C4 (counterexample): the persisted sequence numbers are not gap-free.
A successful pipeline run with no agent callback events persists the
sequence numbers `0, 1, 2, 5, 10, 11` — hard-coded `5` and `10` leave gaps
after `2` and `5`. -/
theorem c4_counterexample :
    pipelineSeqs 0 .pushCompleted = [0, 1, 2, 5, 10, 11] ∧
    ¬ noGaps (pipelineSeqs 0 .pushCompleted) := by
  refine ⟨rfl, ?_⟩
  intro h
  rw [show pipelineSeqs 0 .pushCompleted = [0, 1, 2, 5, 10, 11] from rfl] at h
  simp [noGaps, List.chain'_cons] at h

/-- C4 (amended): per-session sequence numbers are unique and strictly
increasing for every pipeline run (though with gaps: the pipeline hard-codes
`0, 1, 2, 5` and counts agent events from `10`), and the websocket resume
query returns exactly the persisted events with sequence greater than the
cursor, in increasing sequence order. -/
theorem c4_sequences_increasing :
    (∀ (n : ℕ) (o : PipeOutcome), List.Pairwise (· < ·) (pipelineSeqs n o)) ∧
    (∀ (events : List SessionEv) (lastSeq : ℕ),
       List.Pairwise (fun a b : SessionEv => a.seq < b.seq) events →
       wsNewEvents events lastSeq = events.filter (fun e => lastSeq < e.seq) ∧
       List.Pairwise (fun a b : SessionEv => a.seq < b.seq) (wsNewEvents events lastSeq) ∧
       (∀ e, e ∈ wsNewEvents events lastSeq ↔ e ∈ events ∧ lastSeq < e.seq)) := by
  refine ⟨pipelineSeqs_pairwise, ?_⟩
  intro events lastSeq h
  have hfil := wsNewEvents_of_sorted events lastSeq h
  refine ⟨hfil, ?_, ?_⟩
  · rw [hfil]
    exact List.Pairwise.sublist (List.filter_sublist _) h
  · intro e
    rw [hfil]
    simp [List.mem_filter]

/-- C4 (witness): the amended theorem's resume query at a concrete sorted
event log and cursor 2. -/
theorem c4_witness :
    wsNewEvents [⟨0, "status_change", "created"⟩, ⟨2, "status_change", "ready"⟩,
        ⟨5, "status_change", "agent"⟩, ⟨11, "git_operation", "pushed"⟩] 2 =
      List.filter (fun e => 2 < e.seq)
        [⟨0, "status_change", "created"⟩, ⟨2, "status_change", "ready"⟩,
         ⟨5, "status_change", "agent"⟩, ⟨11, "git_operation", "pushed"⟩] :=
  (c4_sequences_increasing.2
    [⟨0, "status_change", "created"⟩, ⟨2, "status_change", "ready"⟩,
     ⟨5, "status_change", "agent"⟩, ⟨11, "git_operation", "pushed"⟩] 2
    (by decide)).1

/-- C5 (confirmed): admission denies whenever a tier's finite (non-`-1`)
monthly-minute allowance is already met or exceeded by
`minutes_used_this_period` — in particular at 60 used of the free tier's
60-minute allowance, with the quota-reason message — admits at 59.9, and a
`-1` (unlimited) allowance always passes the quota check. -/
theorem c5_quota_admission :
    (∀ (t : Tier) (used : ℚ) (sessions : List SessionStatus),
       (TIER_LIMITS t).minutesPerMonth ≠ -1 →
       ((TIER_LIMITS t).minutesPerMonth : ℚ) ≤ used →
       checkTierLimits (some ⟨t, used⟩) sessions = quotaDenied (TIER_LIMITS t)) ∧
    checkTierLimits (some ⟨.free, 60⟩) [] = quotaDenied (TIER_LIMITS .free) ∧
    (checkTierLimits (some ⟨.free, 60⟩) []).reason =
      some "Monthly limit of 60 minutes reached. Please upgrade your plan." ∧
    (checkTierLimits (some ⟨.free, 599 / 10⟩) []).allowed = true ∧
    (∀ (limits : TierLimits) (used : ℚ) (active : ℕ),
       limits.minutesPerMonth = -1 →
       checkLimitsStages limits used active = checkConcurrencyStage limits active) := by
  refine ⟨?_, by decide, by decide, ?_, ?_⟩
  · intro t used sessions hne hle
    cases t <;>
      simp only [TIER_LIMITS] at hne hle ⊢ <;>
      unfold checkTierLimits checkLimitsStages <;>
      simp only [TIER_LIMITS]
    · rw [if_pos (by norm_num), if_pos hle]
    · rw [if_pos (by norm_num), if_pos hle]
    · rw [if_pos (by norm_num), if_pos hle]
    · exact absurd rfl hne
  · unfold checkTierLimits checkLimitsStages checkConcurrencyStage
    simp only [TIER_LIMITS]
    rw [if_pos (by norm_num), if_neg (by norm_num), if_pos (by norm_num),
      if_neg (by norm_num)]
    rfl
  · intro limits used active h
    unfold checkLimitsStages
    rw [h, if_neg (by decide)]

/-- C5 (witness): the quota denial at the pro tier with 600 of 600 minutes
used. -/
theorem c5_witness :
    checkTierLimits (some ⟨.pro, 600⟩) [] = quotaDenied (TIER_LIMITS .pro) :=
  c5_quota_admission.1 .pro 600 [] (by decide) (by norm_num [TIER_LIMITS])

/-- C6 (counterexample): cancelling a session that has already completed
does not leave its status unchanged — `cancel_session` unconditionally
overwrites the terminal status with `cancelled`. -/
theorem c6_counterexample :
    (cancelSession RATE_PER_MINUTE 50
        ⟨⟨"t", "main", .completed, none, some 10, some 40, some 30, 0, 0,
          some "abc", none, some 1, none⟩, none, []⟩).session.status =
      SessionStatus.cancelled ∧
    SessionStatus.cancelled ≠ SessionStatus.completed :=
  ⟨cancelSession_status _ _ _, by decide⟩

/-- C6 (amended): `cancel_session` (and the cancel route, which performs no
status guard) moves any session — terminal or not — to `cancelled`: the
status after cancellation is always `cancelled`, and it equals the previous
status only when that status was already `cancelled`.  Terminal statuses do
have successors in the code. -/
theorem c6_cancel_unconditional (rate now : ℚ) (st : BillingState) :
    (cancelSession rate now st).session.status = SessionStatus.cancelled ∧
    ((cancelSession rate now st).session.status = st.session.status ↔
      st.session.status = SessionStatus.cancelled) := by
  refine ⟨cancelSession_status rate now st, ?_⟩
  rw [cancelSession_status]
  exact eq_comm

/-- C7 (confirmed): for a streamed command exiting with code 3, the observed
line stream ends with the exit-code sentinel carrying 3 and contains no
exec-error sentinel; the aggregated runner result has `success = false` and
`exit_code = 3`; and in general, for any stream of plain output lines
followed by an exit-code sentinel, the runner's `success` is true iff that
reported exit code is 0. -/
theorem c7_exit_code_success :
    execStreamingLines "done\n" 3 = ["done", "__EXIT_CODE__:3"] ∧
    (execStreamingLines "done\n" 3).getLast? =
      some (sentinelExitTag ++ toString (3 : Int)) ∧
    ((execStreamingLines "done\n" 3).all fun l => !(strStartsWith l sentinelErrTag)) = true ∧
    (streamCommand (execStreamingLines "done\n" 3)).1.success = false ∧
    (streamCommand (execStreamingLines "done\n" 3)).1.exitCode = 3 ∧
    ∀ (lines : List String) (el : String) (c : Int),
      (∀ l ∈ lines, plainLine l = true) → classifyLine el = .exitLine c →
      (((streamCommand (lines ++ [el])).1.success = true ↔ c = 0) ∧
       (streamCommand (lines ++ [el])).1.exitCode = c) := by
  have hgen : ∀ (lines : List String) (el : String) (c : Int),
      (∀ l ∈ lines, plainLine l = true) → classifyLine el = .exitLine c →
      (((streamCommand (lines ++ [el])).1.success = true ↔ c = 0) ∧
       (streamCommand (lines ++ [el])).1.exitCode = c) := by
    intro lines el c hp hel
    have h := streamLoop_exit_general hel lines hp initStreamSt []
    exact ⟨h.2, h.1⟩
  have heq : execStreamingLines "done\n" 3 = ["done"] ++ ["__EXIT_CODE__:3"] := by decide
  have h3 := hgen ["done"] "__EXIT_CODE__:3" 3 (by decide) (by decide)
  refine ⟨by decide, by decide, by decide, ?_, ?_, hgen⟩
  · rw [heq]
    rcases hb : (streamCommand (["done"] ++ ["__EXIT_CODE__:3"])).1.success
    · rfl
    · exact absurd (h3.1.mp hb) (by decide)
  · rw [heq]
    exact h3.2

/-- C7 (witness): the general success-iff-zero clause at a concrete
zero-exit stream. -/
theorem c7_witness :
    ((streamCommand (["hi"] ++ ["__EXIT_CODE__:0"])).1.success = true ↔ (0 : Int) = 0) ∧
    (streamCommand (["hi"] ++ ["__EXIT_CODE__:0"])).1.exitCode = 0 :=
  c7_exit_code_success.2.2.2.2.2 ["hi"] "__EXIT_CODE__:0" 0 (by decide) (by decide)

/-- C8 (confirmed): decoder round-trip.  The JSON line
`{"type":"assistant","content":"hello"}` classifies to exactly one
agent-message event with content `hello`; the non-JSON line `build
succeeded` classifies to exactly one agent-message event with content
`build succeeded`; and in general a line that is non-empty after stripping,
fails to parse as JSON and does not start with a brace is treated as a bare
assistant text line. -/
theorem c8_decoder_round_trip :
    classifyLine "\x7b\"type\":\"assistant\",\"content\":\"hello\"\x7d" =
      LineClass.eff ⟨some "hello", none, 0, [("agent_message", "hello")]⟩ ∧
    classifyLine "build succeeded" =
      LineClass.eff ⟨some "build succeeded", none, 0,
        [("agent_message", "build succeeded")]⟩ ∧
    ∀ (l : String), strTrim l ≠ "" → jsonParse (strTrim l) = none →
      strStartsWith (strTrim l) "\x7b" = false →
      parseStreamLine l =
        some (.obj [("type", .str "assistant"), ("content", .str (strTrim l))]) := by
  refine ⟨by decide, by decide, ?_⟩
  intro l h1 h2 h3
  simp [parseStreamLine, h1, h2, h3]

/-- C8 (witness): the bare-text fallback clause at a concrete line. -/
theorem c8_witness :
    parseStreamLine "build ok" =
      some (.obj [("type", .str "assistant"), ("content", .str (strTrim "build ok"))]) :=
  c8_decoder_round_trip.2.2 "build ok" (by decide) rfl (by decide)

/-- C9 (counterexample): the stored cost is the *truncation* of
`duration_minutes * rate_per_minute * 100`, not its ceiling or rounding.
114 seconds at the default $0.01/minute gives
`1.9 * 1 = 1.9` cents, stored as 1 cent; `ceil` and `round` both give 2. -/
theorem c9_counterexample :
    (finalizeSession (1 / 100) 999
        ⟨⟨"task", "main", .completed, none, some 0, some 114, some 114, 0, 0,
          none, none, none, none⟩, none, []⟩).session.costCents = 1 ∧
    ⌈((114 : ℚ) / 60 * (1 / 100) * 100)⌉ = 2 ∧
    round ((114 : ℚ) / 60 * (1 / 100) * 100) = 2 ∧
    (1 : Int) ≠ 2 := by
  refine ⟨?_, ?_, ?_, by decide⟩
  · have h := (finalizeSession_charge (1 / 100) 999
      ⟨⟨"task", "main", .completed, none, some 0, some 114, some 114, 0, 0,
        none, none, none, none⟩, none, []⟩ 114 rfl (by norm_num)).1
    rw [h]
    unfold pyIntTrunc
    rw [if_pos (by norm_num)]
    norm_num
  · rw [Int.ceil_eq_iff]
    norm_num
  · rw [round_eq]
    norm_num

/-- C9 (amended): when finalization runs for a session with a positive
recorded duration, the stored cost is
`trunc(duration_minutes * rate_per_minute * 100)` cents (Python `int()`
truncation, not ceiling/rounding), an immutable billing record with exactly
that amount is appended, and the minutes are added to the subscription's
period usage counter. -/
theorem c9_cost_truncation (rate now : ℚ) (st : BillingState) (d : ℚ)
    (h : st.session.durationSeconds = some d) (hd : 0 < d) :
    (finalizeSession rate now st).session.costCents =
      pyIntTrunc (d / 60 * rate * 100) ∧
    (finalizeSession rate now st).billingRecords =
      st.billingRecords ++
        [⟨pyIntTrunc (d / 60 * rate * 100),
          "Claude Code session: " ++ fmtFixed 1 (d / 60) ++ " min — " ++
            strTake 50 st.session.taskDescription⟩] ∧
    (finalizeSession rate now st).subscription =
      st.subscription.map (fun sb => { sb with minutesUsed := sb.minutesUsed + d / 60 }) :=
  finalizeSession_charge rate now st d h hd

/-- C9 (witness): the amended theorem at the 114-second session. -/
theorem c9_witness :
    (finalizeSession (1 / 100) 999
        ⟨⟨"task", "main", .completed, none, some 0, some 114, some 114, 0, 0,
          none, none, none, none⟩, none, []⟩).session.costCents =
      pyIntTrunc ((114 : ℚ) / 60 * (1 / 100) * 100) :=
  (c9_cost_truncation (1 / 100) 999
    ⟨⟨"task", "main", .completed, none, some 0, some 114, some 114, 0, 0,
      none, none, none, none⟩, none, []⟩ 114 rfl (by norm_num)).1

/-- C10 (confirmed, implicit): both admission checks are enforced only for
strictly positive configured limit values — the guards are `> 0`, so a limit
of `0` (not only the documented `-1` sentinel) admits every request for that
check, and any denial implies the corresponding limit was strictly
positive. -/
theorem c10_zero_limit_admits :
    (∀ (limits : TierLimits) (used : ℚ) (active : ℕ),
       limits.minutesPerMonth ≤ 0 → limits.maxConcurrentSessions ≤ 0 →
       checkLimitsStages limits used active = allowedResult) ∧
    (∀ (used : ℚ) (active : ℕ),
       checkLimitsStages ⟨0, 0, 0⟩ used active = allowedResult) ∧
    (∀ (limits : TierLimits) (used : ℚ) (active : ℕ),
       limits.minutesPerMonth ≤ 0 →
       checkLimitsStages limits used active = checkConcurrencyStage limits active) ∧
    (∀ (limits : TierLimits) (active : ℕ),
       limits.maxConcurrentSessions ≤ 0 →
       checkConcurrencyStage limits active = allowedResult) ∧
    (∀ (limits : TierLimits) (used : ℚ) (active : ℕ),
       checkLimitsStages limits used active ≠ allowedResult →
       0 < limits.minutesPerMonth ∨ 0 < limits.maxConcurrentSessions) := by
  have hconc : ∀ (limits : TierLimits) (active : ℕ),
      limits.maxConcurrentSessions ≤ 0 →
      checkConcurrencyStage limits active = allowedResult := by
    intro limits active h
    unfold checkConcurrencyStage
    rw [if_neg (not_lt.mpr h)]
  have hquota : ∀ (limits : TierLimits) (used : ℚ) (active : ℕ),
      limits.minutesPerMonth ≤ 0 →
      checkLimitsStages limits used active = checkConcurrencyStage limits active := by
    intro limits used active h
    unfold checkLimitsStages
    rw [if_neg (not_lt.mpr h)]
  have hboth : ∀ (limits : TierLimits) (used : ℚ) (active : ℕ),
      limits.minutesPerMonth ≤ 0 → limits.maxConcurrentSessions ≤ 0 →
      checkLimitsStages limits used active = allowedResult := by
    intro limits used active h1 h2
    rw [hquota limits used active h1]
    exact hconc limits active h2
  refine ⟨hboth, ?_, hquota, hconc, ?_⟩
  · intro used active
    exact hboth ⟨0, 0, 0⟩ used active (by decide) (by decide)
  · intro limits used active hne
    by_contra hcon
    push_neg at hcon
    exact hne (hboth limits used active hcon.1 hcon.2)

/-- C10 (witness): a zero monthly-minutes limit and zero concurrency limit
admit a request with huge usage and many active sessions. -/
theorem c10_witness :
    checkLimitsStages ⟨0, 0, 0⟩ 1000000 50 = allowedResult :=
  c10_zero_limit_admits.1 ⟨0, 0, 0⟩ 1000000 50 (by decide) (by decide)
